import Mathlib

/-!
Verification of the store-information resolution subsystem of the
aliexpress-product-scraper repository: the StoreInfo data entity, the
scraper registry, the fallback-chain manager, the per-backend batch loop,
the 3-tier extraction orchestrator, and the legacy-mapping adapter.

All definitions are shallow embeddings of the Python source
(src/store_scraper_interface.py, src/traditional_store_scraper.py,
src/mcp_store_scraper.py, src/store_integration.py).  Browser/page
interaction is abstracted: a backend is modelled by the function it
computes per URL, with a raised exception modelled as `Except.error`.
-/

namespace StoreScraper

/-- The `StoreScrapingMethod` enumeration (store_scraper_interface.py lines 21-28). -/
inductive StoreScrapingMethod where
  | mcp_playwright
  | traditional_playwright
  | requests_based
  | selenium
  | captcha_solver
deriving DecidableEq, Repr

/-- The `.value` string of each enum member. -/
def StoreScrapingMethod.value : StoreScrapingMethod → String
  | .mcp_playwright => "mcp_playwright"
  | .traditional_playwright => "traditional_playwright"
  | .requests_based => "requests_based"
  | .selenium => "selenium"
  | .captcha_solver => "captcha_solver"

/-- Python truthiness of an optional string: `None` and `""` are falsy,
every other string is truthy. -/
def pyTruthy : Option String → Bool
  | none => false
  | some s => !s.isEmpty

/-- Python `str(x)` of an optional string as used in an f-string:
`None` renders as the literal `"None"`. -/
def pyStr : Option String → String
  | none => "None"
  | some s => s

/-- A Python value as it appears inside the `to_dict` mapping: `None`,
a string, or a (string-valued) metadata dictionary. -/
inductive PyVal where
  | pynone
  | str (s : String)
  | dict (d : List (String × String))
deriving DecidableEq, Repr

/-- Inject an optional string field into its Python dict value. -/
def optToPy : Option String → PyVal
  | none => .pynone
  | some s => .str s

/-- Read an optional-string field back out of a Python dict value
(the inverse of `optToPy` on its image; a dict value never occurs
for the string fields of a `to_dict` output). -/
def pyToOpt : PyVal → Option String
  | .pynone => none
  | .str s => some s
  | .dict _ => none

/-- Read a metadata dict back out of a Python dict value (the values
`to_dict` stores under `"metadata"` are always dicts). -/
def pyToDict : PyVal → List (String × String)
  | .dict d => d
  | _ => []

/-- First-match association-list lookup, modelling Python dict access
(dict keys are unique, so first match is the match). -/
def alookup {α β : Type} [DecidableEq α] (k : α) : List (α × β) → Option β
  | [] => none
  | (a, b) :: rest => if a = k then some b else alookup k rest

/-- The `StoreInfo` record (store_scraper_interface.py lines 31-50),
after the constructor has run: every field holds exactly what
`__init__` assigned.  `metadata` is a dict by then (never `None`). -/
structure StoreInfo where
  store_name : Option String
  store_id : Option String
  store_url : Option String
  source_url : Option String
  extraction_method : Option String
  error : Option String
  metadata : List (String × String)
deriving DecidableEq, Repr

/-- `StoreInfo.__init__` (lines 34-50): all parameters default to `None`;
`self.metadata = metadata or {}` turns a `None` (or empty) metadata
argument into the empty dict. -/
def StoreInfo.make (store_name store_id store_url source_url extraction_method
    error : Option String) (metadata : Option (List (String × String))) : StoreInfo :=
  { store_name := store_name
    store_id := store_id
    store_url := store_url
    source_url := source_url
    extraction_method := extraction_method
    error := error
    metadata := metadata.getD [] }

/-- `StoreInfo.is_valid` (lines 77-80):
`bool(self.store_name or self.store_id) and not self.error`. -/
def StoreInfo.is_valid (s : StoreInfo) : Bool :=
  (pyTruthy s.store_name || pyTruthy s.store_id) && !pyTruthy s.error

/-- `StoreInfo.to_dict` (lines 52-62): the seven-key mapping. -/
def StoreInfo.to_dict (s : StoreInfo) : List (String × PyVal) :=
  [ ("store_name", optToPy s.store_name)
  , ("store_id", optToPy s.store_id)
  , ("store_url", optToPy s.store_url)
  , ("source_url", optToPy s.source_url)
  , ("extraction_method", optToPy s.extraction_method)
  , ("error", optToPy s.error)
  , ("metadata", .dict s.metadata) ]

/-- Python `data.get(k)`: `None` when the key is absent. -/
def pyGet (d : List (String × PyVal)) (k : String) : PyVal :=
  (alookup k d).getD .pynone

/-- Python `data.get(k, default)`. -/
def pyGetD (d : List (String × PyVal)) (k : String) (dflt : PyVal) : PyVal :=
  (alookup k d).getD dflt

/-- `StoreInfo.from_dict` (lines 64-75): reads each field with
`data.get(...)` (metadata with default `{}`) and calls the constructor. -/
def StoreInfo.from_dict (data : List (String × PyVal)) : StoreInfo :=
  StoreInfo.make
    (pyToOpt (pyGet data "store_name"))
    (pyToOpt (pyGet data "store_id"))
    (pyToOpt (pyGet data "store_url"))
    (pyToOpt (pyGet data "source_url"))
    (pyToOpt (pyGet data "extraction_method"))
    (pyToOpt (pyGet data "error"))
    (some (pyToDict (pyGetD data "metadata" (.dict []))))

/-! ## Registry and manager (store_scraper_interface.py lines 142-311)

A backend instance is modelled by the functions it computes.  A call that
raises is an `Except.error` carrying `str(e)`. -/

/-- The behaviour of one registered backend instance: `scrape_single_store`,
`scrape_multiple_stores` and the `supports_batch_processing` flag. -/
structure Scraper where
  scrape_single : String → Except String StoreInfo
  scrape_multiple : List String → Except String (List (String × StoreInfo))
  supports_batch : Bool

/-- Manager state (store_scraper_interface.py lines 184-187): the resolved
registry view (method identifier to backend instance), the fallback chain
and the default method. -/
structure Manager where
  registry : List (StoreScrapingMethod × Scraper)
  fallback_chain : List StoreScrapingMethod
  default_method : Option StoreScrapingMethod

/-- `StoreScraperManager.set_default_method` (lines 189-191). -/
def Manager.set_default_method (m : Manager) (method : StoreScrapingMethod) : Manager :=
  { m with default_method := some method }

/-- `StoreScraperManager.set_fallback_chain` (lines 193-197): stores
`methods.copy()` — a plain copy of the argument list. -/
def Manager.set_fallback_chain (m : Manager) (methods : List StoreScrapingMethod) : Manager :=
  { m with fallback_chain := methods }

/-- The `methods_to_try` list built at lines 208-217: the preferred method
if given, else the default method if set, followed by the fallback chain. -/
def methodsToTry (m : Manager) (preferred : Option StoreScrapingMethod) :
    List StoreScrapingMethod :=
  (match preferred with
   | some p => [p]
   | none =>
     match m.default_method with
     | some d => [d]
     | none => []) ++ m.fallback_chain

/-- The seen-set deduplication loop at lines 219-225 (remove duplicates
while preserving order). -/
def dedupLoop : List StoreScrapingMethod → List StoreScrapingMethod →
    List StoreScrapingMethod
  | [], _ => []
  | m :: rest, seen =>
    if m ∈ seen then dedupLoop rest seen
    else m :: dedupLoop rest (m :: seen)

/-- The `unique_methods` candidate list of `scrape_store_with_fallback`. -/
def candidateMethods (m : Manager) (preferred : Option StoreScrapingMethod) :
    List StoreScrapingMethod :=
  dedupLoop (methodsToTry m preferred) []

/-- The update `last_error = result.error or "No valid store data returned"`
at line 245 (Python `or`: an absent or empty error string falls back to the
literal). -/
def lastErrOf (r : StoreInfo) : String :=
  match r.error with
  | some s => if s.isEmpty then "No valid store data returned" else s
  | none => "No valid store data returned"

/-- The all-methods-failed `StoreInfo` built at lines 252-257. -/
def allFailedInfo (product_url : String) (last_error : Option String) : StoreInfo :=
  StoreInfo.make none none none (some product_url)
    (some "fallback_failed")
    (some ("All scraping methods failed. Last error: " ++ pyStr last_error))
    none

/-- The candidate loop of `scrape_store_with_fallback` (lines 227-257):
skip unregistered candidates, return the first valid result, record the
error of an invalid result, catch a raised exception and record its
message, and build the composed failure once exhausted. -/
def tryMethods (reg : List (StoreScrapingMethod × Scraper)) (product_url : String) :
    List StoreScrapingMethod → Option String → StoreInfo
  | [], last_error => allFailedInfo product_url last_error
  | m :: rest, last_error =>
    match alookup m reg with
    | none => tryMethods reg product_url rest last_error
    | some scraper =>
      match scraper.scrape_single product_url with
      | .error e => tryMethods reg product_url rest (some e)
      | .ok result =>
        if result.is_valid then result
        else tryMethods reg product_url rest (some (lastErrOf result))

/-- `StoreScraperManager.scrape_store_with_fallback` (lines 199-257). -/
def scrape_store_with_fallback (m : Manager) (product_url : String)
    (preferred : Option StoreScrapingMethod) : StoreInfo :=
  tryMethods m.registry product_url (candidateMethods m preferred) none

/-- Instrumented copy of the candidate loop: additionally returns the list
of candidates whose `scrape_single_store` was actually invoked, and the
final value of `last_error`. -/
def tryMethodsTrace (reg : List (StoreScrapingMethod × Scraper)) (product_url : String) :
    List StoreScrapingMethod → Option String →
    List StoreScrapingMethod × Option String × StoreInfo
  | [], last_error => ([], last_error, allFailedInfo product_url last_error)
  | m :: rest, last_error =>
    match alookup m reg with
    | none => tryMethodsTrace reg product_url rest last_error
    | some scraper =>
      match scraper.scrape_single product_url with
      | .error e =>
        let t := tryMethodsTrace reg product_url rest (some e)
        (m :: t.1, t.2)
      | .ok result =>
        if result.is_valid then ([m], last_error, result)
        else
          let t := tryMethodsTrace reg product_url rest (some (lastErrOf result))
          (m :: t.1, t.2)

/-- The methods actually invoked during `scrape_store_with_fallback`. -/
def invokedMethods (m : Manager) (product_url : String)
    (preferred : Option StoreScrapingMethod) : List StoreScrapingMethod :=
  (tryMethodsTrace m.registry product_url (candidateMethods m preferred) none).1

/-- The final `last_error` recorded during `scrape_store_with_fallback`. -/
def finalLastError (m : Manager) (product_url : String)
    (preferred : Option StoreScrapingMethod) : Option String :=
  (tryMethodsTrace m.registry product_url (candidateMethods m preferred) none).2.1

/-- `method_to_use = preferred_method or self.default_method` (line 272). -/
def methodToUse (m : Manager) (preferred : Option StoreScrapingMethod) :
    Option StoreScrapingMethod :=
  match preferred with
  | some p => some p
  | none => m.default_method

/-- The per-URL fan-out of `scrape_multiple_stores_with_fallback`
(lines 284-311): every URL goes through the single-URL fallback; in this
model no task raises (the single-URL fallback is total), so the gathered
mapping has one entry per URL. -/
def perUrlResults (m : Manager) (product_urls : List String)
    (preferred : Option StoreScrapingMethod) : List (String × StoreInfo) :=
  product_urls.map (fun url => (url, scrape_store_with_fallback m url preferred))

/-- `StoreScraperManager.scrape_multiple_stores_with_fallback`
(lines 259-311): empty input returns the empty mapping; otherwise, if the
preferred-or-default method is registered and its backend supports batch
processing, the whole list is delegated to that backend's batch method and
its result returned directly; a raised batch call is caught and control
falls through to the per-URL path. -/
def scrape_multiple_stores_with_fallback (m : Manager) (product_urls : List String)
    (preferred : Option StoreScrapingMethod) : List (String × StoreInfo) :=
  if product_urls.isEmpty then []
  else
    match methodToUse m preferred with
    | none => perUrlResults m product_urls preferred
    | some method_to_use =>
      match alookup method_to_use m.registry with
      | none => perUrlResults m product_urls preferred
      | some scraper =>
        if scraper.supports_batch then
          match scraper.scrape_multiple product_urls with
          | .ok res => res
          | .error _ => perUrlResults m product_urls preferred
        else perUrlResults m product_urls preferred

/-- The argument lists with which `scrape_multiple_stores_with_fallback`
invokes a backend's native batch method (instrumentation of the same
branch structure). -/
def batchInvocations (m : Manager) (product_urls : List String)
    (preferred : Option StoreScrapingMethod) : List (List String) :=
  if product_urls.isEmpty then []
  else
    match methodToUse m preferred with
    | none => []
    | some method_to_use =>
      match alookup method_to_use m.registry with
      | none => []
      | some scraper =>
        if scraper.supports_batch then [product_urls] else []

/-! ## Deduplication preserving first occurrence -/

/-- Modelled from the spec: "deduplicated preserving first occurrence" —
keep each element's first occurrence and drop every later duplicate. -/
def dedupSpec : List StoreScrapingMethod → List StoreScrapingMethod
  | [] => []
  | x :: xs => x :: dedupSpec (xs.filter (fun a => a ≠ x))
termination_by l => l.length
decreasing_by
  simp only [List.length_cons]
  exact Nat.lt_succ_of_le (List.length_filter_le _ _)

/-- A single scraping attempt that did not succeed: it raised, or it
returned a non-valid `StoreInfo`. -/
def attemptNotValid : Except String StoreInfo → Bool
  | .error _ => true
  | .ok r => !r.is_valid

/-- A candidate method that cannot make `scrape_store_with_fallback`
succeed for `product_url`: it is not registered (skipped), or its
single-URL scrape raises or returns a non-valid result. -/
def methodFails (reg : List (StoreScrapingMethod × Scraper)) (product_url : String)
    (m : StoreScrapingMethod) : Bool :=
  match alookup m reg with
  | none => true
  | some s => attemptNotValid (s.scrape_single product_url)

/-- An optional string field that is present in the Python-truthiness
sense: a non-`None`, non-empty string. -/
def present (o : Option String) : Prop :=
  ∃ s, o = some s ∧ s ≠ ""

/-- An optional string field that is absent in the Python-truthiness
sense: `None` or the empty string. -/
def absent (o : Option String) : Prop :=
  o = none ∨ o = some ""

/-! ## Registry caching (store_scraper_interface.py lines 142-176)

The class/instance caching of `StoreScraperRegistry` is modelled over an
arbitrary instance type `Inst`; a registered class is the constructor
function it computes on its kwargs. -/

/-- `StoreScraperRegistry` state: the `_scrapers` class map and the
`_instances` singleton cache. -/
structure PyRegistry (Inst : Type) where
  scrapers : List (StoreScrapingMethod × (List (String × String) → Inst))
  instances : List (StoreScrapingMethod × Inst)

/-- `StoreScraperRegistry.register` (lines 149-154): `_scrapers[method] =
scraper_class`; prepending shadows any earlier entry under first-match
lookup, so a re-registration is last-write-wins. -/
def PyRegistry.register {Inst : Type} (reg : PyRegistry Inst)
    (method : StoreScrapingMethod) (scraper_class : List (String × String) → Inst) :
    PyRegistry Inst :=
  { reg with scrapers := (method, scraper_class) :: reg.scrapers }

/-- `StoreScraperRegistry.get_scraper` (lines 156-168): raise when the
method was never registered; construct and cache the instance with the
given kwargs when no instance is cached; always return the cached
instance (so kwargs on a cache hit are ignored). -/
def PyRegistry.get_scraper {Inst : Type} (reg : PyRegistry Inst)
    (method : StoreScrapingMethod) (kwargs : List (String × String)) :
    Except String (PyRegistry Inst × Inst) :=
  match alookup method reg.scrapers with
  | none => .error ("Store scraper not registered: " ++ method.value)
  | some scraper_class =>
    match alookup method reg.instances with
    | some inst => .ok (reg, inst)
    | none =>
      let inst := scraper_class kwargs
      .ok ({ reg with instances := (method, inst) :: reg.instances }, inst)

/-- `StoreScraperRegistry.clear_instances` (lines 174-176). -/
def PyRegistry.clear_instances {Inst : Type} (reg : PyRegistry Inst) :
    PyRegistry Inst :=
  { reg with instances := [] }

/-! ## Per-backend batch loop
(traditional_store_scraper.py lines 229-301; the MCP variant at
mcp_store_scraper.py lines 154-212 has the same structure with tag
"mcp_playwright_batch_error"). -/

/-- The error-tagged `StoreInfo` built for a URL whose task raised inside
a batch (traditional_store_scraper.py lines 276-280). -/
def batchErrorInfo (url e : String) : StoreInfo :=
  StoreInfo.make none none none (some url)
    (some "traditional_playwright_batch_error") (some e) none

/-- One batch: gather the per-URL tasks with exceptions returned as
values, converting a raised task into an error-tagged `StoreInfo` keyed
to its URL (lines 264-283). -/
def processBatch (scrapeOne : String → Except String StoreInfo)
    (batch : List String) : List (String × StoreInfo) :=
  batch.map (fun url =>
    (url, match scrapeOne url with
          | .ok r => r
          | .error e => batchErrorInfo url e))

/-- The batch loop of `scrape_multiple_stores` (lines 254-290): slice the
URL list into consecutive `batch_size` chunks, process each chunk, and
sleep between batches (`if i + batch_size < len(product_urls)`).  The
per-URL scraping function is a parameter (`_scrape_single_with_page`
drives a browser page).  Returns the chunks, the number of inter-batch
sleeps performed, and the aggregated result mapping.  The recursion
argument `rest.drop (batch_size - 1)` equals `(u :: rest).drop
batch_size` whenever `batch_size ≥ 1` (Python's `range` raises on a zero
step, so `batch_size = 0` never occurs in the source). -/
def batchRun (scrapeOne : String → Except String StoreInfo) (batch_size : Nat) :
    (product_urls : List String) →
      List (List String) × Nat × List (String × StoreInfo)
  | [] => ([], 0, [])
  | u :: rest =>
    let batch := (u :: rest).take batch_size
    let r := batchRun scrapeOne batch_size (rest.drop (batch_size - 1))
    (batch :: r.1,
     (if (rest.drop (batch_size - 1)).isEmpty then 0 else 1) + r.2.1,
     processBatch scrapeOne batch ++ r.2.2)
termination_by urls => urls.length
decreasing_by
  simp only [List.length_drop, List.length_cons]
  omega

/-- The result mapping of a backend's `scrape_multiple_stores`. -/
def scrape_multiple_stores_model (scrapeOne : String → Except String StoreInfo)
    (batch_size : Nat) (product_urls : List String) :
    List (String × StoreInfo) :=
  (batchRun scrapeOne batch_size product_urls).2.2

/-! ## 3-tier extraction orchestrator
(traditional_store_scraper.py lines 322-348; the MCP variant has the same
structure).  The three tier extractors read an already-loaded browser
page, so they are abstracted by the `StoreInfo` each returns. -/

/-- The all-methods-failed `StoreInfo` of lines 343-348. -/
def allExtractionFailedInfo (product_url : String) : StoreInfo :=
  StoreInfo.make none none none (some product_url)
    (some "traditional_playwright_all_failed")
    (some "All extraction methods failed to find store information") none

/-- `_extract_store_info_with_fallback` (lines 322-348): try tier 1
(XPath), return it if valid; else tier 2 (CSS selectors), same rule; else
tier 3 (link/breadcrumb heuristics); else the fixed all-failed result. -/
def extract_store_info_with_fallback (t1 t2 t3 : StoreInfo)
    (product_url : String) : StoreInfo :=
  if t1.is_valid then t1
  else if t2.is_valid then t2
  else if t3.is_valid then t3
  else allExtractionFailedInfo product_url

/-- The tiers whose extractor runs during
`_extract_store_info_with_fallback` (instrumentation of the same branch
structure; tier 3 runs even when its result is not valid). -/
def tiersInvoked (t1 t2 t3 : StoreInfo) : List Nat :=
  if t1.is_valid then [1]
  else if t2.is_valid then [1, 2]
  else [1, 2, 3]

/-! ## Legacy-compatible adapter (store_integration.py lines 87-164) -/

/-- One entry of the legacy mapping: always carries the three keys
`store_name`, `store_id`, `store_url`. -/
structure LegacyEntry where
  store_name : Option String
  store_id : Option String
  store_url : Option String
deriving DecidableEq, Repr

/-- The conversion at store_integration.py lines 122-127. -/
def toLegacyEntry (si : StoreInfo) : LegacyEntry :=
  { store_name := si.store_name, store_id := si.store_id, store_url := si.store_url }

/-- The explicit-null entry used for absent or failed lookups. -/
def emptyLegacyEntry : LegacyEntry :=
  { store_name := none, store_id := none, store_url := none }

/-- `EnhancedStoreInfoIntegration.fetch_store_info_enhanced` (lines
87-146): empty input gives the empty mapping; otherwise every manager
result is converted to the three-key legacy shape.  (The `except` branch
at lines 141-146 fills every URL with the explicit-null entry; the
manager call is total in this model, so that branch is unreachable.) -/
def fetch_store_info_enhanced (m : Manager) (product_urls : List String)
    (preferred : Option StoreScrapingMethod) : List (String × LegacyEntry) :=
  if product_urls.isEmpty then []
  else
    (scrape_multiple_stores_with_fallback m product_urls preferred).map
      (fun p => (p.1, toLegacyEntry p.2))

/-- `EnhancedStoreInfoIntegration.fetch_single_store_info` (lines
148-164): `results.get(product_url, null-triple)`. -/
def fetch_single_store_info (m : Manager) (product_url : String)
    (preferred : Option StoreScrapingMethod) : LegacyEntry :=
  (alookup product_url (fetch_store_info_enhanced m [product_url] preferred)).getD
    emptyLegacyEntry

/-! ## Concrete fixtures used by the witnesses -/

/-- A valid extraction result for a URL. -/
def okStoreInfo (url : String) : StoreInfo :=
  StoreInfo.make (some "Shop A") (some "123") (some "https://x.com/store/123")
    (some url) (some "traditional_playwright_xpath") none none

/-- A non-valid extraction result for a URL. -/
def invalidStoreInfo (url : String) : StoreInfo :=
  StoreInfo.make none none none (some url)
    (some "traditional_playwright_xpath_failed")
    (some "XPath selector did not find store element") none

/-- A backend whose every call succeeds. -/
def goodScraper : Scraper :=
  { scrape_single := fun url => .ok (okStoreInfo url)
    scrape_multiple := fun urls => .ok (urls.map (fun u => (u, okStoreInfo u)))
    supports_batch := true }

/-- A backend whose every call raises. -/
def badScraper : Scraper :=
  { scrape_single := fun _ => .error "boom"
    scrape_multiple := fun _ => .error "batch boom"
    supports_batch := true }

/-- A backend that returns only non-valid results. -/
def weakScraper : Scraper :=
  { scrape_single := fun url => .ok (invalidStoreInfo url)
    scrape_multiple := fun urls => .ok (urls.map (fun u => (u, invalidStoreInfo u)))
    supports_batch := false }

/-- A manager whose first candidate raises and whose second succeeds. -/
def testManager : Manager :=
  { registry := [(.mcp_playwright, badScraper), (.traditional_playwright, goodScraper)]
    fallback_chain := [.mcp_playwright, .selenium, .traditional_playwright]
    default_method := some .mcp_playwright }

/-- A manager with an empty registry: every candidate is skipped. -/
def emptyManager : Manager :=
  { registry := []
    fallback_chain := [.mcp_playwright]
    default_method := some .mcp_playwright }

/-- A manager whose only registered backend raises everything. -/
def failingManager : Manager :=
  { registry := [(.mcp_playwright, badScraper)]
    fallback_chain := [.mcp_playwright]
    default_method := some .mcp_playwright }

/-- A registry over `Nat` instances: the registered class builds the
length of its kwargs, making construction-time kwargs observable. -/
def natRegistry : PyRegistry Nat :=
  { scrapers := [(.selenium, fun kw => kw.length)], instances := [] }

/-- Seven product URLs for the batch scenario. -/
def w7urls : List String := ["a", "b", "c", "d", "e", "x", "y"]

/-- A per-URL scraping function that raises on one URL and succeeds on
the others. -/
def w7f : String → Except String StoreInfo := fun u =>
  if u = "c" then .error "boom" else .ok (okStoreInfo u)

/-! ## Supporting lemmas -/

/-- The instrumented loop computes the same result as the plain loop. -/
theorem tryMethodsTrace_result (reg : List (StoreScrapingMethod × Scraper))
    (product_url : String) (l : List StoreScrapingMethod) (last_error : Option String) :
    (tryMethodsTrace reg product_url l last_error).2.2 =
      tryMethods reg product_url l last_error := by
  induction l generalizing last_error with
  | nil => rfl
  | cons m rest ih =>
    simp only [tryMethodsTrace, tryMethods]
    cases hl : alookup m reg with
    | none => exact ih last_error
    | some scraper =>
      cases hs : scraper.scrape_single product_url with
      | error e => simpa only [hs] using ih (some e)
      | ok result =>
        by_cases hv : result.is_valid
        · simp [hs, hv]
        · simpa only [hs, hv, Bool.false_eq_true, if_false]
            using ih (some (lastErrOf result))

/-- The seen-set loop agrees with the first-occurrence specification:
running with accumulator `seen` equals the spec on the elements not yet
seen. -/
theorem dedupLoop_eq_filter (l seen : List StoreScrapingMethod) :
    dedupLoop l seen = dedupSpec (l.filter (fun a => a ∉ seen)) := by
  induction l generalizing seen with
  | nil => simp [dedupLoop, dedupSpec]
  | cons x xs ih =>
    by_cases hx : x ∈ seen
    · have h1 : dedupLoop (x :: xs) seen = dedupLoop xs seen := by
        simp [dedupLoop, hx]
      have h2 : (x :: xs).filter (fun a => a ∉ seen) =
          xs.filter (fun a => a ∉ seen) := by
        simp [List.filter_cons, hx]
      rw [h1, h2]
      exact ih seen
    · have h1 : dedupLoop (x :: xs) seen = x :: dedupLoop xs (x :: seen) := by
        simp [dedupLoop, hx]
      have h2 : (x :: xs).filter (fun a => a ∉ seen) =
          x :: xs.filter (fun a => a ∉ seen) := by
        simp [List.filter_cons, hx]
      rw [h1, h2, dedupSpec, ih (x :: seen), List.filter_filter]
      congr 1
      have h3 : xs.filter (fun a => decide (a ∉ x :: seen)) =
          xs.filter (fun a => decide (a ≠ x) && decide (a ∉ seen)) := by
        apply List.filter_congr
        intro a _
        by_cases hax : a = x <;> by_cases has : a ∈ seen <;>
          simp [hax, has, List.mem_cons]
      rw [h3]

/-- The candidate list is the first-occurrence deduplication of
`[preferred or default] ++ fallback_chain`. -/
theorem candidateMethods_eq_dedupSpec (m : Manager)
    (preferred : Option StoreScrapingMethod) :
    candidateMethods m preferred = dedupSpec (methodsToTry m preferred) := by
  unfold candidateMethods
  rw [dedupLoop_eq_filter]
  congr 1
  simp

/-- Traversing a prefix of candidates that all fail: the loop reaches the
suffix with some recorded last error, having invoked exactly the
registered members of the prefix. -/
theorem tryMethodsTrace_append_fails (reg : List (StoreScrapingMethod × Scraper))
    (product_url : String) (pre l : List StoreScrapingMethod) (last : Option String)
    (hpre : ∀ m ∈ pre, methodFails reg product_url m = true) :
    ∃ last2,
      tryMethodsTrace reg product_url (pre ++ l) last =
        (pre.filter (fun m => (alookup m reg).isSome) ++
           (tryMethodsTrace reg product_url l last2).1,
         (tryMethodsTrace reg product_url l last2).2) := by
  induction pre generalizing last with
  | nil => exact ⟨last, by simp⟩
  | cons m pre ih =>
    have hm := hpre m (by simp)
    have hrest : ∀ m' ∈ pre, methodFails reg product_url m' = true :=
      fun m' h => hpre m' (by simp [h])
    rw [List.cons_append]
    cases hl : alookup m reg with
    | none =>
      obtain ⟨l2, hl2⟩ := ih last hrest
      refine ⟨l2, ?_⟩
      simp only [tryMethodsTrace, hl, List.append_eq]
      rw [hl2]
      simp [List.filter_cons, hl]
    | some s =>
      simp only [methodFails, hl] at hm
      cases hs : s.scrape_single product_url with
      | error e =>
        obtain ⟨l2, hl2⟩ := ih (some e) hrest
        refine ⟨l2, ?_⟩
        simp only [tryMethodsTrace, hl, hs, List.append_eq]
        rw [hl2]
        simp [List.filter_cons, hl]
      | ok r =>
        have hv : r.is_valid = false := by
          simp only [hs, attemptNotValid, Bool.not_eq_true'] at hm
          exact hm
        obtain ⟨l2, hl2⟩ := ih (some (lastErrOf r)) hrest
        refine ⟨l2, ?_⟩
        simp only [tryMethodsTrace, hl, hs, hv, Bool.false_eq_true, if_false,
          List.append_eq]
        rw [hl2]
        simp [List.filter_cons, hl]

/-- A head candidate that is registered and returns a valid result stops
the loop at once: only that candidate is invoked and its result is
returned, whatever the remaining candidates are. -/
theorem tryMethodsTrace_head_valid (reg : List (StoreScrapingMethod × Scraper))
    (product_url : String) (m₀ : StoreScrapingMethod)
    (post : List StoreScrapingMethod) (last : Option String) (s : Scraper)
    (r : StoreInfo) (hm : alookup m₀ reg = some s)
    (hs : s.scrape_single product_url = .ok r) (hv : r.is_valid = true) :
    tryMethodsTrace reg product_url (m₀ :: post) last = ([m₀], last, r) := by
  simp [tryMethodsTrace, hm, hs, hv]

/-- When every candidate fails, the loop returns the composed failure
built from the final recorded last error. -/
theorem tryMethodsTrace_all_fail (reg : List (StoreScrapingMethod × Scraper))
    (product_url : String) (l : List StoreScrapingMethod) (last : Option String)
    (h : ∀ m ∈ l, methodFails reg product_url m = true) :
    (tryMethodsTrace reg product_url l last).2.2 =
      allFailedInfo product_url ((tryMethodsTrace reg product_url l last).2.1) := by
  induction l generalizing last with
  | nil => rfl
  | cons m rest ih =>
    have hm := h m (by simp)
    have hrest : ∀ m' ∈ rest, methodFails reg product_url m' = true :=
      fun m' h' => h m' (by simp [h'])
    simp only [tryMethodsTrace]
    cases hl : alookup m reg with
    | none => exact ih last hrest
    | some s =>
      simp only [methodFails, hl] at hm
      cases hs : s.scrape_single product_url with
      | error e => simpa only [hs] using ih (some e) hrest
      | ok r =>
        have hv : r.is_valid = false := by
          simp only [hs, attemptNotValid, Bool.not_eq_true'] at hm
          exact hm
        simpa only [hs, hv, Bool.false_eq_true, if_false]
          using ih (some (lastErrOf r)) hrest

/-- `allFailedInfo` is never valid (no store name, no store id). -/
theorem allFailedInfo_not_valid (product_url : String) (last : Option String) :
    (allFailedInfo product_url last).is_valid = false := by
  simp [allFailedInfo, StoreInfo.make, StoreInfo.is_valid, pyTruthy]

/-- Looking up a URL in a mapping built by pairing each URL with a
function of itself yields that function's value. -/
theorem alookup_map_pair {β : Type} (f : String → β) (urls : List String)
    (url : String) (h : url ∈ urls) :
    alookup url (urls.map (fun u => (u, f u))) = some (f url) := by
  induction urls with
  | nil => cases h
  | cons u rest ih =>
    rcases List.mem_cons.mp h with h1 | h1
    · subst h1
      simp [alookup]
    · by_cases hu : u = url
      · subst hu
        simp [alookup]
      · simp only [List.map_cons, alookup, hu, if_false]
        exact ih h1

/-- `pyToOpt` inverts `optToPy`. -/
theorem pyToOpt_optToPy (o : Option String) : pyToOpt (optToPy o) = o := by
  cases o <;> rfl

/-- When every candidate fails, `scrape_store_with_fallback` returns the
composed failure built from the final recorded last error. -/
theorem scrape_all_fail (mgr : Manager) (url : String)
    (preferred : Option StoreScrapingMethod)
    (hfail : ∀ m ∈ candidateMethods mgr preferred,
      methodFails mgr.registry url m = true) :
    scrape_store_with_fallback mgr url preferred =
      allFailedInfo url (finalLastError mgr url preferred) := by
  unfold scrape_store_with_fallback finalLastError
  rw [← tryMethodsTrace_result]
  exact tryMethodsTrace_all_fail mgr.registry url _ none hfail

/-- Python truthiness of an optional string coincides with `present`. -/
theorem pyTruthy_eq_true_iff (o : Option String) :
    pyTruthy o = true ↔ present o := by
  cases o with
  | none =>
    constructor
    · intro h
      cases h
    · rintro ⟨t, ht, _⟩
      cases ht
  | some s =>
    constructor
    · intro h
      refine ⟨s, rfl, fun hs => ?_⟩
      subst hs
      cases h
    · rintro ⟨t, ht, hne⟩
      injection ht with ht'
      subst ht'
      show (!s.isEmpty) = true
      cases h : s.isEmpty with
      | false => rfl
      | true => exact absurd ((String.isEmpty_iff s).mp h) hne

/-- Python falsiness of an optional string coincides with `absent`. -/
theorem pyTruthy_eq_false_iff (o : Option String) :
    pyTruthy o = false ↔ absent o := by
  cases o with
  | none =>
    constructor
    · intro _
      exact Or.inl rfl
    · intro _
      rfl
  | some s =>
    constructor
    · intro h
      right
      have hs : s.isEmpty = true := by
        have : (!s.isEmpty) = false := h
        cases he : s.isEmpty with
        | true => rfl
        | false => rw [he] at this; cases this
      rw [(String.isEmpty_iff s).mp hs]
    · intro h
      rcases h with h | h
      · cases h
      · injection h with h'
        subst h'
        rfl

/-! ## Claim theorems -/

/-- C1: for every call to `scrape_store_with_fallback(url, preferred_method)`,
the candidate order is `[preferred if given, else default if set] ++
fallback_chain` deduplicated preserving first occurrence; candidates whose
fallback-prefix members are unregistered or fail are skipped or recorded,
and the first candidate returning a valid result is returned immediately:
only the registered prefix members and that candidate are invoked, no
later candidate. -/
theorem C1_candidate_order_and_first_success
    (mgr : Manager) (url : String) (preferred : Option StoreScrapingMethod)
    (pre post : List StoreScrapingMethod) (m₀ : StoreScrapingMethod)
    (s : Scraper) (r : StoreInfo)
    (hsplit : candidateMethods mgr preferred = pre ++ m₀ :: post)
    (hpre : ∀ m ∈ pre, methodFails mgr.registry url m = true)
    (hm : alookup m₀ mgr.registry = some s)
    (hok : s.scrape_single url = .ok r)
    (hv : r.is_valid = true) :
    candidateMethods mgr preferred = dedupSpec (methodsToTry mgr preferred) ∧
    scrape_store_with_fallback mgr url preferred = r ∧
    invokedMethods mgr url preferred =
      pre.filter (fun m => (alookup m mgr.registry).isSome) ++ [m₀] := by
  obtain ⟨last2, htr⟩ :=
    tryMethodsTrace_append_fails mgr.registry url pre (m₀ :: post) none hpre
  have hhead :=
    tryMethodsTrace_head_valid mgr.registry url m₀ post last2 s r hm hok hv
  refine ⟨candidateMethods_eq_dedupSpec mgr preferred, ?_, ?_⟩
  · unfold scrape_store_with_fallback
    rw [← tryMethodsTrace_result, hsplit, htr, hhead]
  · unfold invokedMethods
    rw [hsplit, htr, hhead]

/-- C1 witness: with a concrete manager whose first candidate raises and
whose third (second registered) candidate succeeds, the theorem applies. -/
theorem C1_witness :
    candidateMethods testManager none = dedupSpec (methodsToTry testManager none) ∧
    scrape_store_with_fallback testManager "u" none = okStoreInfo "u" ∧
    invokedMethods testManager "u" none =
      List.filter (fun m => (alookup m testManager.registry).isSome)
        [StoreScrapingMethod.mcp_playwright, StoreScrapingMethod.selenium] ++
        [StoreScrapingMethod.traditional_playwright] :=
  C1_candidate_order_and_first_success testManager "u" none
    [.mcp_playwright, .selenium] [] .traditional_playwright goodScraper
    (okStoreInfo "u") (by decide) (by decide) rfl rfl (by decide)

/-- C2: a raised exception from a candidate backend is caught, recorded as
the last error, and the next candidate is tried; and when every candidate
is exhausted without a valid result, the call returns (does not raise) a
`StoreInfo` whose error is the composed message including the last
recorded error, whose extraction_method is "fallback_failed", and whose
source_url is the input URL, so it is not valid. -/
theorem C2_exception_caught_and_exhaustion_result
    (mgr : Manager) (url : String) (preferred : Option StoreScrapingMethod)
    (hall : ∀ m ∈ candidateMethods mgr preferred,
      methodFails mgr.registry url m = true) :
    (∀ (m : StoreScrapingMethod) (rest : List StoreScrapingMethod)
        (last : Option String) (s : Scraper) (e : String),
      alookup m mgr.registry = some s → s.scrape_single url = .error e →
      tryMethods mgr.registry url (m :: rest) last =
        tryMethods mgr.registry url rest (some e)) ∧
    scrape_store_with_fallback mgr url preferred =
      allFailedInfo url (finalLastError mgr url preferred) ∧
    (scrape_store_with_fallback mgr url preferred).error =
      some ("All scraping methods failed. Last error: " ++
        pyStr (finalLastError mgr url preferred)) ∧
    (scrape_store_with_fallback mgr url preferred).extraction_method =
      some "fallback_failed" ∧
    (scrape_store_with_fallback mgr url preferred).source_url = some url ∧
    (scrape_store_with_fallback mgr url preferred).is_valid = false := by
  have hmain : scrape_store_with_fallback mgr url preferred =
      allFailedInfo url (finalLastError mgr url preferred) := by
    unfold scrape_store_with_fallback finalLastError
    rw [← tryMethodsTrace_result]
    exact tryMethodsTrace_all_fail mgr.registry url _ none hall
  refine ⟨?_, hmain, ?_, ?_, ?_, ?_⟩
  · intro m rest last s e hm hs
    simp [tryMethods, hm, hs]
  · rw [hmain]; rfl
  · rw [hmain]; rfl
  · rw [hmain]; rfl
  · rw [hmain]; exact allFailedInfo_not_valid url _
/-- C2 witness: a manager whose only registered backend raises "boom"
exhausts its candidates and returns the composed failure value. -/
theorem C2_witness :
    scrape_store_with_fallback failingManager "u" none =
      allFailedInfo "u" (finalLastError failingManager "u" none) ∧
    (scrape_store_with_fallback failingManager "u" none).error =
      some ("All scraping methods failed. Last error: " ++
        pyStr (finalLastError failingManager "u" none)) ∧
    (scrape_store_with_fallback failingManager "u" none).is_valid = false ∧
    finalLastError failingManager "u" none = some "boom" := by
  have h := C2_exception_caught_and_exhaustion_result failingManager "u" none
    (by decide)
  exact ⟨h.2.1, h.2.2.1, h.2.2.2.2.2, rfl⟩

/-- C4 counterexample: `set_fallback_chain([A, A])` stores `[A, A]`
unchanged, which is not the claimed first-occurrence deduplication
`[A]`. -/
theorem C4_counterexample :
    (Manager.set_fallback_chain emptyManager
        [StoreScrapingMethod.mcp_playwright,
         StoreScrapingMethod.mcp_playwright]).fallback_chain =
      [StoreScrapingMethod.mcp_playwright, StoreScrapingMethod.mcp_playwright] ∧
    dedupSpec [StoreScrapingMethod.mcp_playwright,
        StoreScrapingMethod.mcp_playwright] =
      [StoreScrapingMethod.mcp_playwright] ∧
    [StoreScrapingMethod.mcp_playwright, StoreScrapingMethod.mcp_playwright] ≠
      [StoreScrapingMethod.mcp_playwright] := by
  refine ⟨rfl, ?_, by decide⟩
  rw [dedupSpec]
  norm_num [List.filter_cons, dedupSpec]

/-- C4 amended: `set_fallback_chain(L)` stores a copy of `L` unchanged;
the first-occurrence deduplication happens later, when
`scrape_store_with_fallback` builds its candidate list. -/
theorem C4_amended_copy_then_dedup_at_resolution
    (mgr : Manager) (L : List StoreScrapingMethod) :
    (Manager.set_fallback_chain mgr L).fallback_chain = L ∧
    ∀ preferred,
      candidateMethods (Manager.set_fallback_chain mgr L) preferred =
        dedupSpec (methodsToTry (Manager.set_fallback_chain mgr L) preferred) :=
  ⟨rfl, fun preferred => candidateMethods_eq_dedupSpec _ preferred⟩

/-- C5: for every constructed `StoreInfo`, `is_valid` is true iff
(store_name present or store_id present) and error absent, where a `None`
or empty-string field counts as absent — including the edge cases
`store_name = ""` (absent) and `error = ""` (absent). -/
theorem C5_is_valid_iff_present_and_no_error
    (n i u su em e : Option String) (md : Option (List (String × String))) :
    ((StoreInfo.make n i u su em e md).is_valid = true ↔
      ((present n ∨ present i) ∧ absent e)) ∧
    (StoreInfo.make (some "") none none none none none none).is_valid = false ∧
    (StoreInfo.make (some "Shop") none none none none (some "") none).is_valid
      = true := by
  refine ⟨?_, by decide, by decide⟩
  show ((pyTruthy n || pyTruthy i) && !pyTruthy e) = true ↔ _
  rw [Bool.and_eq_true, Bool.or_eq_true, Bool.not_eq_true',
    pyTruthy_eq_true_iff, pyTruthy_eq_true_iff, pyTruthy_eq_false_iff]

/-- C3: for a non-empty URL list, when the preferred-or-default method is
registered and its backend supports batch processing, the whole list is
delegated to that backend's batch method exactly once and its result is
returned directly; if the batch call raises, every URL goes through the
per-URL fallback path, which yields an entry for each input URL; the
empty input returns the empty mapping. -/
theorem C3_batch_delegation_and_batch_fallback
    (mgr : Manager) (urls : List String)
    (preferred : Option StoreScrapingMethod) :
    (urls = [] →
      scrape_multiple_stores_with_fallback mgr urls preferred = [] ∧
      batchInvocations mgr urls preferred = []) ∧
    (∀ (mu : StoreScrapingMethod) (s : Scraper)
        (res : List (String × StoreInfo)),
      urls ≠ [] → methodToUse mgr preferred = some mu →
      alookup mu mgr.registry = some s → s.supports_batch = true →
      s.scrape_multiple urls = .ok res →
      scrape_multiple_stores_with_fallback mgr urls preferred = res ∧
      batchInvocations mgr urls preferred = [urls]) ∧
    (∀ (mu : StoreScrapingMethod) (s : Scraper) (e : String),
      urls ≠ [] → methodToUse mgr preferred = some mu →
      alookup mu mgr.registry = some s → s.supports_batch = true →
      s.scrape_multiple urls = .error e →
      scrape_multiple_stores_with_fallback mgr urls preferred =
        urls.map (fun u => (u, scrape_store_with_fallback mgr u preferred)) ∧
      (scrape_multiple_stores_with_fallback mgr urls preferred).map Prod.fst
        = urls ∧
      batchInvocations mgr urls preferred = [urls]) := by
  refine ⟨?_, ?_, ?_⟩
  · rintro rfl
    exact ⟨rfl, rfl⟩
  · intro mu s res hne hmu hs hsb hres
    have hie : urls.isEmpty = false := List.isEmpty_eq_false.mpr hne
    constructor
    · simp only [scrape_multiple_stores_with_fallback, hie, Bool.false_eq_true,
        if_false, hmu, hs, hsb, if_true, hres]
    · simp only [batchInvocations, hie, Bool.false_eq_true, if_false, hmu, hs,
        hsb, if_true]
  · intro mu s e hne hmu hs hsb hres
    have hie : urls.isEmpty = false := List.isEmpty_eq_false.mpr hne
    have hmap : scrape_multiple_stores_with_fallback mgr urls preferred =
        urls.map (fun u => (u, scrape_store_with_fallback mgr u preferred)) := by
      simp only [scrape_multiple_stores_with_fallback, hie, Bool.false_eq_true,
        if_false, hmu, hs, hsb, if_true, hres, perUrlResults]
    refine ⟨hmap, ?_, ?_⟩
    · rw [hmap]
      simp [List.map_map, Function.comp_def]
    · simp only [batchInvocations, hie, Bool.false_eq_true, if_false, hmu, hs,
        hsb, if_true]

/-- C3 witness: with a batch-capable default backend whose batch method
raises, a two-URL call falls back to per-URL resolution for every URL. -/
theorem C3_witness :
    scrape_multiple_stores_with_fallback testManager ["a", "b"] none =
      (["a", "b"] : List String).map
        (fun u => (u, scrape_store_with_fallback testManager u none)) ∧
    (scrape_multiple_stores_with_fallback testManager ["a", "b"] none).map
      Prod.fst = ["a", "b"] ∧
    batchInvocations testManager ["a", "b"] none = [["a", "b"]] :=
  (C3_batch_delegation_and_batch_fallback testManager ["a", "b"] none).2.2
    .mcp_playwright badScraper "batch boom" (by decide) rfl rfl rfl rfl

/-- C6: within a single backend's single-URL extraction, tier 1 (XPath)
is tried first and returned when valid without invoking tiers 2 and 3;
else tier 2 (CSS selectors), same rule; else tier 3 (link/breadcrumb
heuristics); when all three results are non-valid the fixed
all-methods-failed `StoreInfo` is returned with its identifying tag. -/
theorem C6_tier_order_and_all_failed
    (t1 t2 t3 : StoreInfo) (product_url : String) :
    (t1.is_valid = true →
      extract_store_info_with_fallback t1 t2 t3 product_url = t1 ∧
      tiersInvoked t1 t2 t3 = [1]) ∧
    (t1.is_valid = false → t2.is_valid = true →
      extract_store_info_with_fallback t1 t2 t3 product_url = t2 ∧
      tiersInvoked t1 t2 t3 = [1, 2]) ∧
    (t1.is_valid = false → t2.is_valid = false → t3.is_valid = true →
      extract_store_info_with_fallback t1 t2 t3 product_url = t3 ∧
      tiersInvoked t1 t2 t3 = [1, 2, 3]) ∧
    (t1.is_valid = false → t2.is_valid = false → t3.is_valid = false →
      extract_store_info_with_fallback t1 t2 t3 product_url =
        allExtractionFailedInfo product_url ∧
      tiersInvoked t1 t2 t3 = [1, 2, 3] ∧
      (extract_store_info_with_fallback t1 t2 t3 product_url).error =
        some "All extraction methods failed to find store information" ∧
      (extract_store_info_with_fallback t1 t2 t3 product_url).extraction_method =
        some "traditional_playwright_all_failed") := by
  refine ⟨?_, ?_, ?_, ?_⟩
  · intro h1
    simp [extract_store_info_with_fallback, tiersInvoked, h1]
  · intro h1 h2
    simp [extract_store_info_with_fallback, tiersInvoked, h1, h2]
  · intro h1 h2 h3
    simp [extract_store_info_with_fallback, tiersInvoked, h1, h2, h3]
  · intro h1 h2 h3
    have hfall : extract_store_info_with_fallback t1 t2 t3 product_url =
        allExtractionFailedInfo product_url := by
      simp [extract_store_info_with_fallback, h1, h2, h3]
    refine ⟨hfall, by simp [tiersInvoked, h1, h2, h3], ?_, ?_⟩
    · rw [hfall]; rfl
    · rw [hfall]; rfl

/-- C6 witness: an invalid tier-1 result followed by a valid tier-2
result returns the tier-2 result having invoked only tiers 1 and 2. -/
theorem C6_witness :
    extract_store_info_with_fallback (invalidStoreInfo "u") (okStoreInfo "u")
      (invalidStoreInfo "u") "u" = okStoreInfo "u" ∧
    tiersInvoked (invalidStoreInfo "u") (okStoreInfo "u")
      (invalidStoreInfo "u") = [1, 2] :=
  (C6_tier_order_and_all_failed (invalidStoreInfo "u") (okStoreInfo "u")
    (invalidStoreInfo "u") "u").2.1 (by decide) (by decide)

/-- Equation of the batch loop on the empty list. -/
theorem batchRun_nil (f : String → Except String StoreInfo) (b : Nat) :
    batchRun f b [] = ([], 0, []) := by
  rw [batchRun]

/-- Equation of the batch loop on a non-empty list, with a positive batch
size written as `b' + 1`. -/
theorem batchRun_cons (f : String → Except String StoreInfo) (b' : Nat)
    (u : String) (rest : List String) :
    batchRun f (b' + 1) (u :: rest) =
      ((u :: rest).take (b' + 1) ::
         (batchRun f (b' + 1) (rest.drop b')).1,
       (if (rest.drop b').isEmpty then 0 else 1) +
         (batchRun f (b' + 1) (rest.drop b')).2.1,
       processBatch f ((u :: rest).take (b' + 1)) ++
         (batchRun f (b' + 1) (rest.drop b')).2.2) := by
  rw [batchRun]
  simp only [Nat.add_sub_cancel]

/-- The batches of the batch loop concatenate back to the input list:
they are a consecutive partition. -/
theorem batchRun_flatten (f : String → Except String StoreInfo) (b' : Nat)
    (urls : List String) :
    (batchRun f (b' + 1) urls).1.flatten = urls := by
  suffices hgen : ∀ (n : Nat) (urls : List String), urls.length = n →
      (batchRun f (b' + 1) urls).1.flatten = urls by
    exact hgen urls.length urls rfl
  intro n
  induction n using Nat.strong_induction_on with
  | h n ih =>
    intro urls hn
    cases urls with
    | nil => simp [batchRun_nil]
    | cons u rest =>
      rw [batchRun_cons]
      simp only [List.flatten_cons]
      have hlt : (rest.drop b').length < n := by
        subst hn
        simp only [List.length_drop, List.length_cons]
        omega
      rw [ih _ hlt _ rfl, List.take_succ_cons, List.cons_append,
        List.take_append_drop]

/-- The aggregated results of the batch loop are the per-URL conversion
applied to the whole input list, in order. -/
theorem batchRun_results (f : String → Except String StoreInfo) (b' : Nat)
    (urls : List String) :
    (batchRun f (b' + 1) urls).2.2 = processBatch f urls := by
  suffices hgen : ∀ (n : Nat) (urls : List String), urls.length = n →
      (batchRun f (b' + 1) urls).2.2 = processBatch f urls by
    exact hgen urls.length urls rfl
  intro n
  induction n using Nat.strong_induction_on with
  | h n ih =>
    intro urls hn
    cases urls with
    | nil => simp [batchRun_nil, processBatch]
    | cons u rest =>
      rw [batchRun_cons]
      have hlt : (rest.drop b').length < n := by
        subst hn
        simp only [List.length_drop, List.length_cons]
        omega
      rw [ih _ hlt _ rfl]
      show processBatch f ((u :: rest).take (b' + 1)) ++
        processBatch f (rest.drop b') = processBatch f (u :: rest)
      unfold processBatch
      rw [← List.map_append, List.take_succ_cons, List.cons_append,
        List.take_append_drop]

/-- The number of batches is the ceiling `⌈N / batch_size⌉`, written
`(N + batch_size - 1) / batch_size` with `batch_size = b' + 1`. -/
theorem batchRun_length (f : String → Except String StoreInfo) (b' : Nat)
    (urls : List String) (hne : urls ≠ []) :
    (batchRun f (b' + 1) urls).1.length = (urls.length + b') / (b' + 1) := by
  suffices hgen : ∀ (n : Nat) (urls : List String), urls.length = n → urls ≠ [] →
      (batchRun f (b' + 1) urls).1.length = (urls.length + b') / (b' + 1) by
    exact hgen urls.length urls rfl hne
  intro n
  induction n using Nat.strong_induction_on with
  | h n ih =>
    intro urls hn hne
    cases urls with
    | nil => cases hne rfl
    | cons u rest =>
      rw [batchRun_cons]
      simp only [List.length_cons]
      cases hd : rest.drop b' with
      | nil =>
        have hr : rest.length ≤ b' := by
          have h := congrArg List.length hd
          simp only [List.length_drop, List.length_nil] at h
          omega
        rw [batchRun_nil]
        show 0 + 1 = (rest.length + 1 + b') / (b' + 1)
        rw [Nat.zero_add]
        exact (Nat.div_eq_of_lt_le (by omega) (by omega)).symm
      | cons v vrest =>
        have hdl : rest.length - b' = vrest.length + 1 := by
          have h := congrArg List.length hd
          simp only [List.length_drop, List.length_cons] at h
          exact h
        have hlt2 : (v :: vrest).length < n := by
          subst hn
          simp only [List.length_cons]
          omega
        rw [ih _ hlt2 _ rfl (List.cons_ne_nil v vrest)]
        simp only [List.length_cons]
        have h1 : vrest.length + 1 + b' = rest.length := by omega
        have h2 : rest.length + 1 + b' = rest.length + (b' + 1) := by omega
        rw [h1, h2, Nat.add_div_right _ (Nat.succ_pos b')]

/-- Every batch is non-empty and no larger than the batch size. -/
theorem batchRun_sizes (f : String → Except String StoreInfo) (b' : Nat)
    (urls : List String) :
    ∀ c ∈ (batchRun f (b' + 1) urls).1, c.length ≤ b' + 1 ∧ c ≠ [] := by
  suffices hgen : ∀ (n : Nat) (urls : List String), urls.length = n →
      ∀ c ∈ (batchRun f (b' + 1) urls).1, c.length ≤ b' + 1 ∧ c ≠ [] by
    exact hgen urls.length urls rfl
  intro n
  induction n using Nat.strong_induction_on with
  | h n ih =>
    intro urls hn
    cases urls with
    | nil =>
      intro c hc
      rw [batchRun_nil] at hc
      cases hc
    | cons u rest =>
      intro c hc
      rw [batchRun_cons] at hc
      rcases List.mem_cons.mp hc with h1 | h1
      · subst h1
        constructor
        · rw [List.length_take]
          simp only [List.length_cons]
          omega
        · rw [List.take_succ_cons]
          exact List.cons_ne_nil _ _
      · have hlt : (rest.drop b').length < n := by
          subst hn
          simp only [List.length_drop, List.length_cons]
          omega
        exact ih _ hlt _ rfl c h1

/-- Every batch except the last has exactly the batch size. -/
theorem batchRun_dropLast_full (f : String → Except String StoreInfo)
    (b' : Nat) (urls : List String) :
    ∀ c ∈ (batchRun f (b' + 1) urls).1.dropLast, c.length = b' + 1 := by
  suffices hgen : ∀ (n : Nat) (urls : List String), urls.length = n →
      ∀ c ∈ (batchRun f (b' + 1) urls).1.dropLast, c.length = b' + 1 by
    exact hgen urls.length urls rfl
  intro n
  induction n using Nat.strong_induction_on with
  | h n ih =>
    intro urls hn
    cases urls with
    | nil =>
      intro c hc
      rw [batchRun_nil] at hc
      cases hc
    | cons u rest =>
      intro c hc
      rw [batchRun_cons] at hc
      cases hd : rest.drop b' with
      | nil =>
        rw [hd, batchRun_nil] at hc
        simp at hc
      | cons v vrest =>
        have hdl : rest.length - b' = vrest.length + 1 := by
          have h := congrArg List.length hd
          simp only [List.length_drop, List.length_cons] at h
          exact h
        rw [hd] at hc
        have hshape : ∃ x xs, (batchRun f (b' + 1) (v :: vrest)).1 = x :: xs := by
          rw [batchRun_cons]
          exact ⟨_, _, rfl⟩
        obtain ⟨x, xs, hx⟩ := hshape
        rw [hx, List.dropLast_cons₂] at hc
        rcases List.mem_cons.mp hc with h1 | h1
        · subst h1
          rw [List.length_take]
          simp only [List.length_cons]
          omega
        · have hlt2 : (v :: vrest).length < n := by
            subst hn
            simp only [List.length_cons]
            omega
          apply ih _ hlt2 _ rfl c
          rw [hx]
          exact h1

/-- The loop sleeps after every batch except the last: the sleep count is
one less than the number of batches. -/
theorem batchRun_sleeps (f : String → Except String StoreInfo) (b' : Nat)
    (urls : List String) :
    (batchRun f (b' + 1) urls).2.1 = (batchRun f (b' + 1) urls).1.length - 1 := by
  suffices hgen : ∀ (n : Nat) (urls : List String), urls.length = n →
      (batchRun f (b' + 1) urls).2.1 =
        (batchRun f (b' + 1) urls).1.length - 1 by
    exact hgen urls.length urls rfl
  intro n
  induction n using Nat.strong_induction_on with
  | h n ih =>
    intro urls hn
    cases urls with
    | nil =>
      simp [batchRun_nil]
    | cons u rest =>
      rw [batchRun_cons]
      cases hd : rest.drop b' with
      | nil =>
        simp [batchRun_nil]
      | cons v vrest =>
        have hdl : rest.length - b' = vrest.length + 1 := by
          have h := congrArg List.length hd
          simp only [List.length_drop, List.length_cons] at h
          exact h
        have hlt2 : (v :: vrest).length < n := by
          subst hn
          simp only [List.length_cons]
          omega
        have hrec := ih _ hlt2 _ rfl
        have hshape : ∃ x xs, (batchRun f (b' + 1) (v :: vrest)).1 = x :: xs := by
          rw [batchRun_cons]
          exact ⟨_, _, rfl⟩
        obtain ⟨x, xs, hx⟩ := hshape
        rw [hrec, hx]
        simp only [List.isEmpty_cons, Bool.false_eq_true, if_false,
          List.length_cons]
        omega

/-- C7: for a non-empty URL list and positive batch size, the backend's
batch loop partitions the list into `⌈N / batch_size⌉` consecutive
batches, all of the batch size except a possibly smaller non-empty final
batch; it sleeps after every batch except the last; and a per-URL raise
is converted into an error-tagged `StoreInfo` keyed to that URL instead
of failing the whole batch, so the result has one entry per input URL in
order. -/
theorem C7_batch_partition_delays_and_per_url_errors
    (f : String → Except String StoreInfo) (b : Nat) (urls : List String)
    (hb : 0 < b) (hne : urls ≠ []) :
    (batchRun f b urls).1.flatten = urls ∧
    (batchRun f b urls).1.length = (urls.length + b - 1) / b ∧
    (∀ c ∈ (batchRun f b urls).1.dropLast, c.length = b) ∧
    (∀ c ∈ (batchRun f b urls).1, c.length ≤ b ∧ c ≠ []) ∧
    (batchRun f b urls).2.1 = (batchRun f b urls).1.length - 1 ∧
    scrape_multiple_stores_model f b urls = processBatch f urls ∧
    (scrape_multiple_stores_model f b urls).map Prod.fst = urls ∧
    (∀ url ∈ urls, ∀ e, f url = .error e →
      (url, batchErrorInfo url e) ∈ scrape_multiple_stores_model f b urls) := by
  obtain ⟨b', rfl⟩ : ∃ b', b = b' + 1 := ⟨b - 1, by omega⟩
  have hres : scrape_multiple_stores_model f (b' + 1) urls =
      processBatch f urls := batchRun_results f b' urls
  refine ⟨batchRun_flatten f b' urls, ?_, batchRun_dropLast_full f b' urls,
    batchRun_sizes f b' urls, batchRun_sleeps f b' urls, hres, ?_, ?_⟩
  · have harith : urls.length + (b' + 1) - 1 = urls.length + b' := by omega
    rw [harith, batchRun_length f b' urls hne]
  · rw [hres]
    unfold processBatch
    simp [List.map_map, Function.comp_def]
  · intro url hu e he
    rw [hres]
    unfold processBatch
    refine List.mem_map.mpr ⟨url, hu, ?_⟩
    rw [he]

/-- C7 witness: seven URLs with batch size 3, one URL raising. -/
theorem C7_witness :
    (batchRun w7f 3 w7urls).1.flatten = w7urls ∧
    (batchRun w7f 3 w7urls).1.length = (w7urls.length + 3 - 1) / 3 ∧
    (∀ c ∈ (batchRun w7f 3 w7urls).1.dropLast, c.length = 3) ∧
    (∀ c ∈ (batchRun w7f 3 w7urls).1, c.length ≤ 3 ∧ c ≠ []) ∧
    (batchRun w7f 3 w7urls).2.1 = (batchRun w7f 3 w7urls).1.length - 1 ∧
    scrape_multiple_stores_model w7f 3 w7urls = processBatch w7f w7urls ∧
    (scrape_multiple_stores_model w7f 3 w7urls).map Prod.fst = w7urls ∧
    (∀ url ∈ w7urls, ∀ e, w7f url = .error e →
      (url, batchErrorInfo url e) ∈ scrape_multiple_stores_model w7f 3 w7urls) :=
  C7_batch_partition_delays_and_per_url_errors w7f 3 w7urls (by decide)
    (by decide)

/-- C8: `get_scraper` raises exactly when the method was never
registered; otherwise it returns a cached singleton, constructing it with
the kwargs only on the first call for that method (kwargs on later calls
are silently ignored), and `clear_instances` drops the cache so the next
`get_scraper` reconstructs with the kwargs it is then given. -/
theorem C8_registry_lookup_and_singleton_cache
    {Inst : Type} (reg : PyRegistry Inst) (method : StoreScrapingMethod)
    (cls : List (String × String) → Inst) (k k' k'' : List (String × String))
    (hcls : alookup method reg.scrapers = some cls)
    (hno : alookup method reg.instances = none) :
    (∀ (reg2 : PyRegistry Inst) (kw : List (String × String)),
      (∃ e, PyRegistry.get_scraper reg2 method kw = .error e) ↔
        alookup method reg2.scrapers = none) ∧
    PyRegistry.get_scraper reg method k =
      .ok ({ reg with instances := (method, cls k) :: reg.instances }, cls k) ∧
    PyRegistry.get_scraper
        { reg with instances := (method, cls k) :: reg.instances } method k' =
      .ok ({ reg with instances := (method, cls k) :: reg.instances }, cls k) ∧
    PyRegistry.get_scraper
        (PyRegistry.clear_instances
          { reg with instances := (method, cls k) :: reg.instances })
        method k'' =
      .ok ({ reg with instances := [(method, cls k'')] }, cls k'') := by
  refine ⟨?_, ?_, ?_, ?_⟩
  · intro reg2 kw
    constructor
    · rintro ⟨e, he⟩
      cases hs2 : alookup method reg2.scrapers with
      | none => rfl
      | some c =>
        cases hi : alookup method reg2.instances with
        | some inst => simp [PyRegistry.get_scraper, hs2, hi] at he
        | none => simp [PyRegistry.get_scraper, hs2, hi] at he
    · intro hnone
      exact ⟨"Store scraper not registered: " ++ method.value,
        by simp [PyRegistry.get_scraper, hnone]⟩
  · simp [PyRegistry.get_scraper, hcls, hno]
  · simp [PyRegistry.get_scraper, hcls, alookup]
  · simp [PyRegistry.get_scraper, PyRegistry.clear_instances, hcls, alookup]

/-- C8 witness: a `Nat`-instance registry; the cached instance remembers
the first call's kwargs (length 1), ignores the second call's kwargs, and
is rebuilt from the third call's kwargs (length 2) after
`clear_instances`. -/
theorem C8_witness :
    PyRegistry.get_scraper natRegistry .selenium [("a", "b")] =
      .ok ({ natRegistry with instances := [(.selenium, 1)] }, 1) ∧
    PyRegistry.get_scraper { natRegistry with instances := [(.selenium, 1)] }
        .selenium [] =
      .ok ({ natRegistry with instances := [(.selenium, 1)] }, 1) ∧
    PyRegistry.get_scraper
        (PyRegistry.clear_instances
          { natRegistry with instances := [(.selenium, 1)] })
        .selenium [("x", "y"), ("z", "w")] =
      .ok ({ natRegistry with instances := [(.selenium, 2)] }, 2) := by
  have h := C8_registry_lookup_and_singleton_cache natRegistry .selenium
    (fun kw => kw.length) [("a", "b")] [] [("x", "y"), ("z", "w")] rfl rfl
  exact ⟨h.2.1, h.2.2.1, h.2.2.2⟩

/-- Under batch coverage (a batch backend's successful result is keyed by
exactly the input URLs, as the repository's backends guarantee), the
manager's multi-URL result has one entry per input URL, in order. -/
theorem scrape_multiple_keys (mgr : Manager) (urls : List String)
    (preferred : Option StoreScrapingMethod)
    (hcover : ∀ mu s, methodToUse mgr preferred = some mu →
      alookup mu mgr.registry = some s → s.supports_batch = true →
      ∀ res, s.scrape_multiple urls = .ok res → res.map Prod.fst = urls) :
    (scrape_multiple_stores_with_fallback mgr urls preferred).map Prod.fst
      = urls := by
  cases urls with
  | nil => rfl
  | cons u rest =>
    unfold scrape_multiple_stores_with_fallback
    simp only [List.isEmpty_cons, Bool.false_eq_true, if_false]
    cases hmu : methodToUse mgr preferred with
    | none => simp [perUrlResults, List.map_map, Function.comp_def]
    | some mu =>
      cases hs : alookup mu mgr.registry with
      | none => simp [hs, perUrlResults, List.map_map, Function.comp_def]
      | some s =>
        by_cases hsb : s.supports_batch = true
        · cases hres : s.scrape_multiple (u :: rest) with
          | ok res =>
            simp only [hs, hsb, if_true, hres]
            exact hcover mu s hmu hs hsb res hres
          | error e =>
            simp [hs, hsb, hres, perUrlResults, List.map_map, Function.comp_def]
        · simp [hs, hsb, perUrlResults, List.map_map, Function.comp_def]

/-- C9: the legacy-compatible adapter returns one three-key entry per
requested URL; a URL that fails all methods (per-URL path, every
candidate failing) gets the explicit null triple rather than a missing
key; and the single-URL adapter falls back to the explicit null triple
when the lookup is absent. -/
theorem C9_legacy_adapter_explicit_nulls
    (mgr : Manager) (urls : List String)
    (preferred : Option StoreScrapingMethod)
    (hcover : ∀ mu s, methodToUse mgr preferred = some mu →
      alookup mu mgr.registry = some s → s.supports_batch = true →
      ∀ res, s.scrape_multiple urls = .ok res → res.map Prod.fst = urls) :
    (fetch_store_info_enhanced mgr urls preferred).map Prod.fst = urls ∧
    (∀ url ∈ urls,
      scrape_multiple_stores_with_fallback mgr urls preferred =
        perUrlResults mgr urls preferred →
      (∀ m ∈ candidateMethods mgr preferred,
        methodFails mgr.registry url m = true) →
      alookup url (fetch_store_info_enhanced mgr urls preferred) =
        some emptyLegacyEntry) ∧
    (∀ url, alookup url (fetch_store_info_enhanced mgr [url] preferred) = none →
      fetch_single_store_info mgr url preferred = emptyLegacyEntry) := by
  have hkeys := scrape_multiple_keys mgr urls preferred hcover
  refine ⟨?_, ?_, ?_⟩
  · unfold fetch_store_info_enhanced
    cases hemp : urls.isEmpty with
    | true =>
      rw [if_pos rfl, List.isEmpty_iff.mp hemp]
      rfl
    | false =>
      rw [if_neg Bool.false_ne_true]
      rw [List.map_map]
      exact hkeys
  · intro url hu hper hfail
    have hne : urls ≠ [] := by
      rintro rfl
      cases hu
    unfold fetch_store_info_enhanced
    rw [if_neg (by rw [List.isEmpty_eq_false.mpr hne]; exact Bool.false_ne_true)]
    rw [hper]
    unfold perUrlResults
    rw [List.map_map]
    show alookup url
      (urls.map (fun u =>
        (u, toLegacyEntry (scrape_store_with_fallback mgr u preferred)))) =
      some emptyLegacyEntry
    rw [alookup_map_pair
      (fun u => toLegacyEntry (scrape_store_with_fallback mgr u preferred))
      urls url hu]
    rw [scrape_all_fail mgr url preferred hfail]
    rfl
  · intro url h0
    unfold fetch_single_store_info
    rw [h0]
    rfl

/-- C9 witness: a manager with an empty registry resolves per URL and
every method fails, yet the adapter still maps the URL to the explicit
null triple. -/
theorem C9_witness :
    (fetch_store_info_enhanced emptyManager ["u"] none).map Prod.fst = ["u"] ∧
    alookup "u" (fetch_store_info_enhanced emptyManager ["u"] none) =
      some emptyLegacyEntry := by
  have h := C9_legacy_adapter_explicit_nulls emptyManager ["u"] none
    (by intro mu s hmu hs; simp [emptyManager, alookup] at hs)
  exact ⟨h.1, h.2.1 "u" (by simp) rfl (by decide)⟩

/-- C10: `from_dict` inverts `to_dict` on every `StoreInfo` (all seven
fields preserved); a `StoreInfo` constructed with `metadata = None` holds
the empty mapping; and `to_dict` stores a (possibly empty) dict — never a
null — under `"metadata"`. -/
theorem C10_serialization_roundtrip :
    (∀ s : StoreInfo, StoreInfo.from_dict (StoreInfo.to_dict s) = s) ∧
    (∀ n i u su em e : Option String,
      (StoreInfo.make n i u su em e none).metadata = []) ∧
    (∀ s : StoreInfo, alookup "metadata" (StoreInfo.to_dict s) =
      some (PyVal.dict s.metadata)) := by
  refine ⟨?_, fun n i u su em e => rfl, ?_⟩
  · intro s
    cases s with
    | mk n i u su em e md =>
      simp [StoreInfo.from_dict, StoreInfo.to_dict, pyGet, pyGetD, alookup,
        StoreInfo.make, pyToOpt_optToPy, pyToDict]
  · intro s
    simp [StoreInfo.to_dict, alookup]

end StoreScraper
